import Mathlib

set_option synthInstance.maxSize 512

/-!
Verification development for the k8s-resource-viewer repository
(`k8s_resource_viewer/main.py`, with `k8s_viewer.py`, `config.py`).

Python strings are modelled as `String` (inspected through their `List Char`
data), Python `int` as `Int`, Python `float` as `ℚ` (the quantity strings the
program parses are decimal, and no claim depends on binary-float rounding),
Python dicts as insertion-ordered association lists, and a raised exception as
`Option.none` of the function's result. `Optional[...]` values are `Option`.
Python integer truncation `int(x)` is `Int.tdiv` on exact quotients.
`int(str)` is modelled as an optional sign followed by decimal digits
(the whitespace/underscore tolerance of Python's `int` is not exercised by
any quantity string considered here), `float(str)` likewise without the
exponent/inf/nan forms.
-/

/-- Is the character an ASCII decimal digit, as Python's `int`/`float`
parsing accepts. -/
def isDigitChar (c : Char) : Bool := '0' ≤ c && c ≤ '9'

/-- Numeric value of a digit character. -/
def digitToNat (c : Char) : Nat := c.toNat - '0'.toNat

/-- Accumulate a run of digit characters into a number; fails on the first
non-digit. -/
def digitsValCore : List Char → Nat → Option Nat
  | [], acc => some acc
  | c :: rest, acc =>
    if isDigitChar c then digitsValCore rest (acc * 10 + digitToNat c) else none

/-- Value of a non-empty all-digit character list; `none` otherwise. -/
def digitsVal : List Char → Option Nat
  | [] => none
  | c :: rest => digitsValCore (c :: rest) 0

/-- Python `int(str)` on a character list: optional sign, then digits;
`none` models a `ValueError`. -/
def pyIntChars (cs : List Char) : Option Int :=
  match cs with
  | c :: rest =>
    if c = '-' then (digitsVal rest).map (fun (n : Nat) => -(n : Int))
    else if c = '+' then (digitsVal rest).map (fun (n : Nat) => (n : Int))
    else (digitsVal cs).map (fun (n : Nat) => (n : Int))
  | [] => none

/-- Python `int(str)`. -/
def pyInt (s : String) : Option Int := pyIntChars s.data

/-- Python `str.endswith(ab)` for a two-character suffix `ab`, returning the
stem (`s[:-2]`) on success. -/
def stripSuffix2 (a b : Char) (cs : List Char) : Option (List Char) :=
  match cs.reverse with
  | y :: x :: rest => if x = a ∧ y = b then some rest.reverse else none
  | _ => none

/-- Python `str.endswith(a)` for a one-character suffix `a`, returning the
stem (`s[:-1]`) on success. -/
def stripSuffix1 (a : Char) (cs : List Char) : Option (List Char) :=
  match cs.reverse with
  | y :: rest => if y = a then some rest.reverse else none
  | _ => none

/-- Python `str.rstrip('Ki')`: remove the longest trailing run of characters
drawn from the set {'K', 'i'}. -/
def rstripKi (cs : List Char) : List Char :=
  (cs.reverse.dropWhile (fun c => c == 'K' || c == 'i')).reverse

/-- Core of Python `float(str)` after the sign: `digits`, `digits.`,
`digits.digits` or `.digits`. -/
def floatCore (cs : List Char) : Option ℚ :=
  let ip := cs.takeWhile isDigitChar
  let rest := cs.dropWhile isDigitChar
  match rest with
  | [] => if ip.isEmpty then none else some ((digitsValCore ip 0).getD 0 : Nat)
  | '.' :: rest2 =>
    let fp := rest2.takeWhile isDigitChar
    let rest3 := rest2.dropWhile isDigitChar
    if rest3.isEmpty ∧ ¬(ip.isEmpty ∧ fp.isEmpty) then
      some (((digitsValCore ip 0).getD 0 : Nat) +
            ((digitsValCore fp 0).getD 0 : Nat) / ((10 : ℚ) ^ fp.length))
    else none
  | _ => none

/-- Python `float(str)`: optional sign then `floatCore`; `none` models a
`ValueError`. -/
def pyFloatChars (cs : List Char) : Option ℚ :=
  match cs with
  | c :: rest =>
    if c = '-' then (floatCore rest).map (fun q => -q)
    else if c = '+' then floatCore rest
    else floatCore cs
  | [] => none

/-- Python dict / label lookup `d.get(k)` over an insertion-ordered
association list. -/
def pyDictGet {β : Type} : List (String × β) → String → Option β
  | [], _ => none
  | (k, v) :: rest, key => if k = key then some v else pyDictGet rest key

/-- Python dict assignment `d[k] = v`: overwrite in place, or append a new
binding (insertion order preserved). -/
def pyDictSet {β : Type} : List (String × β) → String → β → List (String × β)
  | [], key, v => [(key, v)]
  | (k, w) :: rest, key, v =>
    if k = key then (key, v) :: rest else (k, w) :: pyDictSet rest key v

/-- Python truthiness of an optional string, as in `if labels.get(k):` —
false for `None` and for the empty string. -/
def pyTruthy : Option String → Bool
  | none => false
  | some s => !s.isEmpty

/-- The value part of the memory branch of `K8sViewer.get_node_metrics`
(main.py lines 1062-1074), before the surrounding `except`: `Ki`/`Mi`/`Gi`
suffixes scale by powers of 1024, the sentinel `<unknown>` is 0, anything
else goes to `int()`; `none` models the `ValueError` the `except` catches. -/
def metricsMemRes (cs : List Char) : Option Int :=
  match stripSuffix2 'K' 'i' cs with
  | some base => (pyIntChars base).map (· * 1024)
  | none =>
    match stripSuffix2 'M' 'i' cs with
    | some base => (pyIntChars base).map (· * (1024 * 1024))
    | none =>
      match stripSuffix2 'G' 'i' cs with
      | some base => (pyIntChars base).map (· * (1024 * 1024 * 1024))
      | none =>
        if cs = "<unknown>".data then some 0 else pyIntChars cs

/-- Memory parsing in `K8sViewer.get_node_metrics` (main.py lines 1059-1077),
including the `except (ValueError, TypeError)` handler that substitutes 0. -/
def metricsMemoryUsed (s : String) : Int := (metricsMemRes s.data).getD 0

/-- The inline capacity/allocatable memory expression of
`K8sViewer.get_node_groups` (main.py lines 337-338) and `get_nodes`
(lines 849-850): `int(mem_str.rstrip('Ki')) * 1024`. `none` models the
uncaught `ValueError` from `int()`. -/
def nodeGroupsMemBytes (s : String) : Option Int :=
  (pyIntChars (rstripKi s.data)).map (· * 1024)

/-- `K8sViewer.parse_cpu_value` (main.py lines 757-772): `<unknown>` is 0,
a trailing `m` divides by 1000, otherwise `float()`; the `except` handler
turns a parse failure into 0. -/
def parse_cpu_value (s : String) : ℚ :=
  (if s = "<unknown>" then some 0
   else
     match stripSuffix1 'm' s.data with
     | some base => (pyFloatChars base).map (· / 1000)
     | none => pyFloatChars s.data).getD 0

/-- Truncation toward zero of an exact rational, as Python `int(float)`. -/
def pyIntTrunc (q : ℚ) : Int := Int.tdiv q.num q.den

/-- Round a rational to the nearest integer, ties to even, as CPython's
`format(x, '.1f')` does on the scaled value. -/
def roundHalfEven (q : ℚ) : Int :=
  let f := ⌊q⌋
  let r := q - f
  if r < 1/2 then f
  else if 1/2 < r then f + 1
  else if f % 2 = 0 then f else f + 1

/-- Python `f"{value:.1f}"` on an exact rational. -/
def fmt1 (q : ℚ) : String :=
  let n := roundHalfEven (q * 10)
  if n < 0 then "-" ++ toString ((-n) / 10) ++ "." ++ toString ((-n) % 10)
  else toString (n / 10) ++ "." ++ toString (n % 10)

/-- The unit table of `K8sViewer.format_resource`. -/
def memUnit : Nat → String
  | 0 => "B"
  | 1 => "Ki"
  | 2 => "Mi"
  | 3 => "Gi"
  | _ => "Ti"

/-- The `while value >= 1024 and unit_index < len(units) - 1` loop of
`K8sViewer.format_resource`, unrolled to its maximal four iterations. -/
def memScale (v : ℚ) : ℚ × Nat :=
  if v < 1024 then (v, 0)
  else
    let v1 := v / 1024
    if v1 < 1024 then (v1, 1)
    else
      let v2 := v1 / 1024
      if v2 < 1024 then (v2, 2)
      else
        let v3 := v2 / 1024
        if v3 < 1024 then (v3, 3) else (v3 / 1024, 4)

/-- `K8sViewer.format_resource` (main.py lines 1008-1026). The body cannot
raise, so the `except` branch is dead and not modelled. -/
def format_resource (value : ℚ) (is_memory : Bool) : String :=
  if is_memory then
    let p := memScale value
    fmt1 p.1 ++ memUnit p.2
  else if value < 1 then toString (pyIntTrunc (value * 1000)) ++ "m"
  else fmt1 value

/-- Gregorian leap-year rule used by Python's `datetime`. -/
def isLeapYear (y : Nat) : Bool := (y % 4 == 0 && y % 100 != 0) || y % 400 == 0

/-- Length of a month, as validated by the `datetime` constructor. -/
def daysInMonth (y m : Nat) : Nat :=
  if m = 2 then (if isLeapYear y then 29 else 28)
  else if m = 4 ∨ m = 6 ∨ m = 9 ∨ m = 11 then 30
  else 31

/-- Days between 1970-01-01 and the civil date y-m-d (y ≥ 1). -/
def daysFromCivil (y m d : Nat) : Int :=
  let yAdj := if m ≤ 2 then y - 1 else y
  let era := yAdj / 400
  let yoe := yAdj % 400
  let mp := (m + 9) % 12
  let doy := (153 * mp + 2) / 5 + (d - 1)
  let doe := yoe * 365 + yoe / 4 - yoe / 100 + doy
  (era * 146097 + doe : Int) - 719468

/-- Consume exactly four digit characters (the `%Y` field of `strptime`). -/
def take4Digits : List Char → Option (Nat × List Char)
  | a :: b :: c :: d :: rest =>
    if isDigitChar a && isDigitChar b && isDigitChar c && isDigitChar d then
      some (((digitToNat a * 10 + digitToNat b) * 10 + digitToNat c) * 10
              + digitToNat d, rest)
    else none
  | _ => none

/-- Greedily consume one or two digit characters (the numeric fields
`%m`/`%d`/`%H`/`%M`/`%S` of `strptime`). -/
def take12Digits : List Char → Option (Nat × List Char)
  | a :: b :: rest =>
    if isDigitChar a then
      if isDigitChar b then some (digitToNat a * 10 + digitToNat b, rest)
      else some (digitToNat a, b :: rest)
    else none
  | [a] => if isDigitChar a then some (digitToNat a, []) else none
  | [] => none

/-- Consume one expected literal character of the format string. -/
def expectChar (c : Char) : List Char → Option (List Char)
  | x :: rest => if x = c then some rest else none
  | [] => none

/-- `datetime.strptime(ts, "%Y-%m-%dT%H:%M:%SZ")` followed by
`.replace(tzinfo=utc)`, producing seconds since the Unix epoch; `none`
models the `ValueError` on any malformed or out-of-range input, including
the field-range validation done by the `datetime` constructor. -/
def parseTsChars (cs : List Char) : Option Int := do
  let (y, r1) ← take4Digits cs
  let r2 ← expectChar '-' r1
  let (m, r3) ← take12Digits r2
  let r4 ← expectChar '-' r3
  let (d, r5) ← take12Digits r4
  let r6 ← expectChar 'T' r5
  let (hh, r7) ← take12Digits r6
  let r8 ← expectChar ':' r7
  let (mi, r9) ← take12Digits r8
  let r10 ← expectChar ':' r9
  let (ss, r11) ← take12Digits r10
  let r12 ← expectChar 'Z' r11
  if r12.isEmpty ∧ 1 ≤ y ∧ 1 ≤ m ∧ m ≤ 12 ∧ 1 ≤ d ∧ d ≤ daysInMonth y m
      ∧ hh ≤ 23 ∧ mi ≤ 59 ∧ ss ≤ 59 then
    some (daysFromCivil y m d * 86400 + (hh * 3600 + mi * 60 + ss : Nat))
  else none

/-- Timestamp parsing entry point on strings. -/
def parseTs (s : String) : Option Int := parseTsChars s.data

/-- `K8sViewer.calculate_age` (main.py lines 985-1006), with the current
UTC time supplied as epoch seconds. `int(x)` truncates toward zero. -/
def calculate_age (nowSec : Int) (timestamp : String) : String :=
  if timestamp = "" then "N/A"
  else
    match parseTs timestamp with
    | none => "N/A"
    | some created =>
      let total_seconds : Int := nowSec - created
      if total_seconds < 3600 then toString (Int.tdiv total_seconds 60) ++ "m"
      else if total_seconds < 86400 then
        toString (Int.tdiv total_seconds 3600) ++ "h"
      else toString (Int.tdiv total_seconds 86400) ++ "d"

/-- The group-name derivation of `K8sViewer.get_node_groups`
(main.py lines 341-355): managed-pool (EKS) label first, else autoscaler
(Karpenter) label, else the reserved label `core-services`, else `worker`.
The `if eks_group:` / `if karpenter_pool:` tests are Python truthiness, so
an empty-string label value falls through like an absent one. -/
def classifyGroup (labels : List (String × String)) : String :=
  let eks_group := pyDictGet labels "eks.amazonaws.com/nodegroup"
  if pyTruthy eks_group then "eks:" ++ eks_group.getD ""
  else
    let karpenter_pool := pyDictGet labels "karpenter.sh/nodepool"
    if pyTruthy karpenter_pool then "karpenter:" ++ karpenter_pool.getD ""
    else if pyDictGet labels "reserved" = some "core-services" then
      "core-services"
    else "worker"

/-- Python `s.startswith(pre)`, over code points. -/
def pyStartsWith (s pre : String) : Bool := pre.data.isPrefixOf s.data

/-- Python slicing `s[n:]`, over code points. -/
def pySliceFrom (n : Nat) (s : String) : String := ⟨s.data.drop n⟩

/-- The membership test of `K8sViewer.get_nodes` (main.py lines 802-810):
the disjunction deciding whether a node belongs to the requested group. -/
def nodeMatchesGroup (group_name : String) (labels : List (String × String)) :
    Bool :=
  (pyStartsWith group_name "eks:" &&
    pyDictGet labels "eks.amazonaws.com/nodegroup"
      == some (pySliceFrom 4 group_name))
  ||
  (pyStartsWith group_name "karpenter:" &&
    pyDictGet labels "karpenter.sh/nodepool"
      == some (pySliceFrom 10 group_name))
  ||
  (group_name == "core-services" &&
    pyDictGet labels "reserved" == some "core-services")
  ||
  (group_name == "worker" &&
    !pyTruthy (pyDictGet labels "eks.amazonaws.com/nodegroup") &&
    !pyTruthy (pyDictGet labels "karpenter.sh/nodepool") &&
    pyDictGet labels "reserved" != some "core-services")

/-- The selection step of `K8sViewer.get_nodes` (main.py lines 796-810):
keep the nodes whose labels satisfy the membership disjunction for the
requested group. -/
def getNodesSelect (group_name : String)
    (nodes : List (List (String × String))) : List (List (String × String)) :=
  nodes.filter (fun labels => nodeMatchesGroup group_name labels)

/-- One cache entry: `{'data': ..., 'timestamp': ...}` as written by
`update_cache`. Timestamps are epoch seconds. -/
structure CEntry (α : Type) where
  data : α
  timestamp : Int
deriving DecidableEq

/-- The cache-relevant state of a `K8sViewer` instance: the configuration
fixed at construction and the nested `cache` dict
(context → cache_type → key → entry). -/
structure ViewerState (α : Type) where
  cache_enabled : Bool
  cache_ttl : Int
  current_context : String
  cache : List (String × List (String × List (String × CEntry α)))
deriving DecidableEq

/-- `K8sViewer.update_cache` (main.py lines 152-173), without the trailing
`save_cache` disk flush (modelled separately in `update_cache_world`):
no-op when caching is disabled, otherwise ensure the context and cache-type
sub-dicts exist and overwrite the entry with the current timestamp. -/
def update_cache {α : Type} (s : ViewerState α) (now : Int)
    (cache_type key : String) (data : α) : ViewerState α :=
  if s.cache_enabled = false then s
  else
    let ctxMap := (pyDictGet s.cache s.current_context).getD []
    let kindMap := (pyDictGet ctxMap cache_type).getD []
    { s with
      cache := pyDictSet s.cache s.current_context
        (pyDictSet ctxMap cache_type
          (pyDictSet kindMap key ⟨data, now⟩)) }

/-- `K8sViewer.is_cache_valid` (main.py lines 203-207): false when caching
is disabled or the entry is absent, else the entry's age must be strictly
below the TTL. -/
def is_cache_valid {α : Type} (s : ViewerState α) (entry : Option (CEntry α))
    (now : Int) : Bool :=
  match entry with
  | none => false
  | some e => s.cache_enabled && decide (now - e.timestamp < s.cache_ttl)

/-- `K8sViewer.get_cached_data` (main.py lines 175-187): `none` when caching
is disabled, the current context is absent, or the entry is absent or
invalid; otherwise the entry's data. -/
def get_cached_data {α : Type} (s : ViewerState α) (now : Int)
    (cache_type key : String) : Option α :=
  if s.cache_enabled = false then none
  else
    match pyDictGet s.cache s.current_context with
    | none => none
    | some ctxMap =>
      let entry := pyDictGet ((pyDictGet ctxMap cache_type).getD []) key
      if is_cache_valid s entry now then entry.map CEntry.data else none

/-- The in-memory state together with the durable cache file contents. -/
structure CacheWorld (α : Type) where
  viewer : ViewerState α
  disk : List (String × List (String × List (String × CEntry α)))
deriving DecidableEq

/-- `K8sViewer.update_cache` including its final `save_cache` call
(main.py lines 152-173 and 194-201): when enabled, the in-memory store is
updated and the entire store is then serialized to disk; `writeOk = false`
models the `except` path of `save_cache`, which logs and leaves the disk
contents unchanged while the in-memory update stands. -/
def update_cache_world {α : Type} (w : CacheWorld α) (writeOk : Bool)
    (now : Int) (cache_type key : String) (data : α) : CacheWorld α :=
  if w.viewer.cache_enabled then
    let v2 := update_cache w.viewer now cache_type key data
    { viewer := v2, disk := if writeOk then v2.cache else w.disk }
  else w

/-- The cache-consultation head of `K8sViewer.get_pod_metrics`
(main.py lines 548-553): `cached = get_cached_data('pods', node); if cached:
return cached` — `none` means control falls through to a fresh fetch. -/
def get_pod_metrics_cacheHit {β : Type} (s : ViewerState (List β)) (now : Int)
    (node_name : String) : Option (List β) :=
  match get_cached_data s now "pods" node_name with
  | some cached_pods => if cached_pods.isEmpty then none else some cached_pods
  | none => none

/-- The cache-consultation head of `K8sViewer.get_nodes`
(main.py lines 776-780), identical in shape under kind `"nodes"`. -/
def get_nodes_cacheHit {β : Type} (s : ViewerState (List β)) (now : Int)
    (group_name : String) : Option (List β) :=
  match get_cached_data s now "nodes" group_name with
  | some cached_nodes =>
    if cached_nodes.isEmpty then none else some cached_nodes
  | none => none

/-- The TTL computation of `K8sViewer.__init__` (main.py line 97 and
k8s_viewer.py line 21): `self.cache_ttl = cache_ttl or default`. Python's
`or` takes the fallback when `cache_ttl` is `None` or `0`. -/
def initCacheTTL (cache_ttl : Option Int) (envDefault : Int) : Int :=
  match cache_ttl with
  | some t => if t = 0 then envDefault else t
  | none => envDefault

/-- The `capacity` / `allocatable` maps of a node's status: the `cpu` and
`memory` quantity strings, each possibly absent (read with `.get(k, '0')`). -/
structure NodeStatusRes where
  cpu : Option String
  memory : Option String
deriving DecidableEq

/-- The fields of a raw node record that `get_node_groups` reads: name,
labels, status capacity/allocatable and the creation timestamp (absent or
empty modelled through `Option`/truthiness as in the source). -/
structure KNode where
  name : String
  labels : List (String × String)
  capacity : NodeStatusRes
  allocatable : NodeStatusRes
  creationTimestamp : Option String
deriving DecidableEq

/-- One node's entry in the metrics map built by `get_node_metrics`:
`{'cpu_used': ..., 'memory_used': ...}`. -/
structure NodeUsage where
  cpu_used : ℚ
  memory_used : Int
deriving DecidableEq

/-- The per-group accumulator dict of `get_node_groups`
(main.py lines 357-366). -/
structure GroupAcc where
  nodes : List KNode
  total_cpu : ℚ
  total_memory : Int
  used_cpu : ℚ
  used_memory : Int
  allocatable_cpu : ℚ
  allocatable_memory : Int
deriving DecidableEq

/-- The empty accumulator a fresh group starts from. -/
def emptyGroupAcc : GroupAcc := ⟨[], 0, 0, 0, 0, 0, 0⟩

/-- The body of the `for node in all_nodes` loop of `get_node_groups`
(main.py lines 322-375): parse the node's quantities, derive its group name
and fold it into the group map. `none` models the uncaught `ValueError`
raised by the inline memory parse on lines 337-338. -/
def addNodeToGroups (node_metrics : List (String × NodeUsage))
    (group_map : List (String × GroupAcc)) (node : KNode) :
    Option (List (String × GroupAcc)) :=
  let metrics := (pyDictGet node_metrics node.name).getD ⟨0, 0⟩
  let cpu_capacity := parse_cpu_value (node.capacity.cpu.getD "0")
  let cpu_allocatable := parse_cpu_value (node.allocatable.cpu.getD "0")
  let cpu_used := metrics.cpu_used
  match nodeGroupsMemBytes (node.capacity.memory.getD "0"),
        nodeGroupsMemBytes (node.allocatable.memory.getD "0") with
  | some memory_capacity, some memory_allocatable =>
    let memory_used := metrics.memory_used
    let group_name := classifyGroup node.labels
    let acc := (pyDictGet group_map group_name).getD emptyGroupAcc
    some (pyDictSet group_map group_name
      { nodes := acc.nodes ++ [node]
        total_cpu := acc.total_cpu + cpu_capacity
        allocatable_cpu := acc.allocatable_cpu + cpu_allocatable
        used_cpu := acc.used_cpu + cpu_used
        total_memory := acc.total_memory + memory_capacity
        allocatable_memory := acc.allocatable_memory + memory_allocatable
        used_memory := acc.used_memory + memory_used })
  | _, _ => none

/-- The full node loop of `get_node_groups`, folding every node into the
group map in list order. -/
def buildGroupMap (node_metrics : List (String × NodeUsage)) :
    List KNode → List (String × GroupAcc) → Option (List (String × GroupAcc))
  | [], group_map => some group_map
  | node :: rest, group_map =>
    match addNodeToGroups node_metrics group_map node with
    | some gm2 => buildGroupMap node_metrics rest gm2
    | none => none

/-- One formatted row of the node-group list (main.py lines 397-405). -/
structure NodeGroupRow where
  name : String
  count : Nat
  age : String
  total_cpu : String
  used_cpu : String
  total_memory : String
  used_memory : String
deriving DecidableEq

/-- Python `min` over a non-empty list of strings: the lexicographically
smallest element, first occurrence. -/
def listMinStr : List String → String
  | [] => ""
  | s :: rest => rest.foldl (fun a b => if b < a then b else a) s

/-- Conversion of one group-map entry into a formatted row
(main.py lines 380-405): the timestamp list keeps only truthy creation
timestamps, the age comes from the oldest one, and the resource sums are
rendered with `format_resource`. -/
def groupRow (nowSec : Int) (entry : String × GroupAcc) : NodeGroupRow :=
  let info := entry.2
  let timestamps := info.nodes.filterMap (fun node =>
    match node.creationTimestamp with
    | some t => if t.isEmpty then none else some t
    | none => none)
  let age := if timestamps.isEmpty then "N/A"
    else calculate_age nowSec (listMinStr timestamps)
  { name := entry.1
    count := info.nodes.length
    age := age
    total_cpu := format_resource info.total_cpu false
    used_cpu := format_resource info.used_cpu false
    total_memory := format_resource info.total_memory true
    used_memory := format_resource info.used_memory true }

/-- Insert a row into a name-sorted row list, after any rows with an equal
name (so the overall sort is stable, like Python's `sorted`). -/
def insertRowByName (r : NodeGroupRow) : List NodeGroupRow → List NodeGroupRow
  | [] => [r]
  | x :: xs => if r.name < x.name then r :: x :: xs else x :: insertRowByName r xs

/-- `sorted(node_groups, key=lambda x: x['name'])` (main.py line 408):
stable ascending sort by group name. -/
def sortedByName : List NodeGroupRow → List NodeGroupRow
  | [] => []
  | x :: xs => insertRowByName x (sortedByName xs)

/-- `K8sViewer.get_node_groups` (main.py lines 260-408) after the three-way
concurrent fetch has joined. Each `Except.error` argument is a sub-fetch
that threw: its handler (lines 273-297) substitutes the empty default.
The Karpenter pool list is fetched but not consumed by the aggregation.
The result is `none` when the node loop raises. -/
def get_node_groups (nowSec : Int) (nodesRes : Except Unit (List KNode))
    (metricsRes : Except Unit (List (String × NodeUsage)))
    (karpenterRes : Except Unit (List String)) : Option (List NodeGroupRow) :=
  let all_nodes := match nodesRes with | .ok v => v | .error _ => []
  let node_metrics := match metricsRes with | .ok v => v | .error _ => []
  let _karpenter_pools := match karpenterRes with | .ok v => v | .error _ => []
  match buildGroupMap node_metrics all_nodes [] with
  | none => none
  | some group_map =>
    some (sortedByName
      ((group_map.filter (fun p => !p.2.nodes.isEmpty)).map (groupRow nowSec)))

/-- Whether both inline memory parses of `get_node_groups`'s node loop
succeed for a node (i.e. the loop body does not raise at lines 337-338). -/
def memParseOkNode (node : KNode) : Bool :=
  (nodeGroupsMemBytes (node.capacity.memory.getD "0")).isSome &&
  (nodeGroupsMemBytes (node.allocatable.memory.getD "0")).isSome

/-- The raw entry-read path of `get_cached_data` (main.py line 184):
`self.cache[self.current_context].get(cache_type, {}).get(key)`, with `none`
also covering an absent current context. -/
def cacheEntryAt {α : Type} (s : ViewerState α) (cache_type key : String) :
    Option (CEntry α) :=
  match pyDictGet s.cache s.current_context with
  | none => none
  | some ctxMap => pyDictGet ((pyDictGet ctxMap cache_type).getD []) key

/-! ## Helper lemmas about the dict model -/

theorem pyDictGet_pyDictSet_self {β : Type} (l : List (String × β))
    (k : String) (v : β) : pyDictGet (pyDictSet l k v) k = some v := by
  induction l with
  | nil => simp [pyDictSet, pyDictGet]
  | cons p rest ih =>
    obtain ⟨k1, w⟩ := p
    by_cases h : k1 = k
    · simp [pyDictSet, pyDictGet, h]
    · simp [pyDictSet, pyDictGet, h, ih]

theorem pyDictGet_pyDictSet_ne {β : Type} (l : List (String × β))
    (k k2 : String) (v : β) (h : k ≠ k2) :
    pyDictGet (pyDictSet l k v) k2 = pyDictGet l k2 := by
  induction l with
  | nil => simp [pyDictSet, pyDictGet, h]
  | cons p rest ih =>
    obtain ⟨k1, w⟩ := p
    by_cases h1 : k1 = k
    · subst h1
      simp [pyDictSet, pyDictGet, h]
    · simp [pyDictSet, pyDictGet, h1, ih]

theorem mem_pyDictSet {β : Type} {l : List (String × β)} {k : String} {v : β}
    {p : String × β} (hp : p ∈ pyDictSet l k v) : p = (k, v) ∨ p ∈ l := by
  induction l with
  | nil => simpa [pyDictSet] using hp
  | cons q rest ih =>
    obtain ⟨k1, w⟩ := q
    by_cases h : k1 = k
    · simp only [pyDictSet, if_pos h, List.mem_cons] at hp
      rcases hp with h1 | h1
      · exact Or.inl h1
      · exact Or.inr (List.mem_cons_of_mem _ h1)
    · simp only [pyDictSet, if_neg h, List.mem_cons] at hp
      rcases hp with h1 | h1
      · exact Or.inr (by simp [h1])
      · rcases ih h1 with h2 | h2
        · exact Or.inl h2
        · exact Or.inr (by simp [h2])

theorem string_isEmpty_false {p : String} (h : p ≠ "") : p.isEmpty = false :=
  Bool.eq_false_iff.mpr (fun hb => h ((String.isEmpty_iff p).mp hb))

/-! ## Claims -/

/-- C9: a caller-supplied TTL of 0 is replaced by the environment/default
value (`cache_ttl or default` in `K8sViewer.__init__`), so an explicit 0
never becomes the effective TTL; any non-zero explicit TTL is kept. -/
theorem ttl_zero_falls_back :
    (∀ envDefault : Int, initCacheTTL (some 0) envDefault = envDefault) ∧
    initCacheTTL (some 0) 30 = 30 ∧
    (∀ t : Int, t ≠ 0 → ∀ envDefault : Int,
      initCacheTTL (some t) envDefault = t) := by
  refine ⟨fun d => rfl, rfl, fun t ht d => ?_⟩
  simp [initCacheTTL, ht]

/-- Witness for C9's third conjunct at concrete inputs. -/
theorem ttl_zero_falls_back_witness :
    initCacheTTL (some 0) 17 = 17 ∧ initCacheTTL (some 5) 30 = 5 :=
  ⟨ttl_zero_falls_back.1 17, ttl_zero_falls_back.2.2 5 (by decide) 30⟩

/-- C3: `get_node_groups` classifies each node by the precedence chain
managed-pool (EKS) label, else autoscaler (Karpenter) label, else
`reserved=core-services`, else `worker`, first match winning. Carrying a
label is the source's Python-truthy test: present with a non-empty value. -/
theorem classification_precedence (labels : List (String × String)) :
    (∀ p, pyDictGet labels "eks.amazonaws.com/nodegroup" = some p → p ≠ "" →
      classifyGroup labels = "eks:" ++ p) ∧
    (pyTruthy (pyDictGet labels "eks.amazonaws.com/nodegroup") = false →
      ∀ p, pyDictGet labels "karpenter.sh/nodepool" = some p → p ≠ "" →
      classifyGroup labels = "karpenter:" ++ p) ∧
    (pyTruthy (pyDictGet labels "eks.amazonaws.com/nodegroup") = false →
      pyTruthy (pyDictGet labels "karpenter.sh/nodepool") = false →
      pyDictGet labels "reserved" = some "core-services" →
      classifyGroup labels = "core-services") ∧
    (pyTruthy (pyDictGet labels "eks.amazonaws.com/nodegroup") = false →
      pyTruthy (pyDictGet labels "karpenter.sh/nodepool") = false →
      pyDictGet labels "reserved" ≠ some "core-services" →
      classifyGroup labels = "worker") := by
  refine ⟨fun p hp hne => ?_, fun he p hp hne => ?_, fun he hk hr => ?_,
    fun he hk hr => ?_⟩
  · have h1 : pyTruthy (some p) = true := by
      simp [pyTruthy, string_isEmpty_false hne]
    simp [classifyGroup, hp, h1]
  · have h2 : pyTruthy (some p) = true := by
      simp [pyTruthy, string_isEmpty_false hne]
    simp [classifyGroup, he, hp, h2]
  · simp [classifyGroup, he, hk, hr]
  · simp [classifyGroup, he, hk, hr]

/-- Witness for C3: a node with both a managed-pool label and a reserved
label classifies under the managed-pool group; a node with no relevant
labels classifies as worker. -/
theorem classification_precedence_witness :
    classifyGroup [("eks.amazonaws.com/nodegroup", "pool-a"),
      ("reserved", "core-services")] = "eks:pool-a" ∧
    classifyGroup [] = "worker" :=
  ⟨(classification_precedence _).1 "pool-a" (by decide) (by decide),
   (classification_precedence []).2.2.2 (by decide) (by decide) (by decide)⟩

/-- C1: evaluation of the source at the failing input. The node carrying
both `eks.amazonaws.com/nodegroup=pool-a` and `reserved=core-services`
derives group `eks:pool-a` under `get_node_groups`'s precedence, yet the
membership disjunction of `get_nodes` also selects it for the
`core-services` group, so `get_nodes('core-services')` returns it —
contradicting the specified re-derivation semantics. -/
theorem get_nodes_filter_diverges_from_classifier :
    classifyGroup [("eks.amazonaws.com/nodegroup", "pool-a"),
      ("reserved", "core-services")] = "eks:pool-a" ∧
    nodeMatchesGroup "eks:pool-a" [("eks.amazonaws.com/nodegroup", "pool-a"),
      ("reserved", "core-services")] = true ∧
    nodeMatchesGroup "core-services"
      [("eks.amazonaws.com/nodegroup", "pool-a"),
       ("reserved", "core-services")] = true ∧
    getNodesSelect "core-services"
      [[("eks.amazonaws.com/nodegroup", "pool-a"),
        ("reserved", "core-services")]] =
      [[("eks.amazonaws.com/nodegroup", "pool-a"),
        ("reserved", "core-services")]] ∧
    ("eks:pool-a" : String) ≠ "core-services" := by decide

/-- A valid entry read back immediately after `update_cache` (shared by the
round-trip and flush-failure claims). -/
theorem get_after_update {α : Type} (s : ViewerState α)
    (cache_type key : String) (x : α) (t1 t2 : Int)
    (hEn : s.cache_enabled = true) (hlt : t2 - t1 < s.cache_ttl) :
    get_cached_data (update_cache s t1 cache_type key x) t2 cache_type key
      = some x := by
  simp [update_cache, get_cached_data, hEn, pyDictGet_pyDictSet_self,
    is_cache_valid, hlt]

/-- C4: a `put` followed by a `get` within the TTL (caching enabled) returns
the stored payload; a stored entry whose age has reached the TTL is a miss;
and validity is exactly caching enabled together with age strictly below
the TTL. -/
theorem cache_round_trip_and_ttl {α : Type} (s : ViewerState α)
    (cache_type key : String) (x : α) (t1 t2 : Int)
    (hEn : s.cache_enabled = true) :
    (t2 - t1 < s.cache_ttl →
      get_cached_data (update_cache s t1 cache_type key x) t2 cache_type key
        = some x) ∧
    (∀ (now : Int) (entry : Option (CEntry α)),
      is_cache_valid s entry now = true ↔
        s.cache_enabled = true ∧
          ∃ e, entry = some e ∧ now - e.timestamp < s.cache_ttl) ∧
    (∀ (now : Int) (e : CEntry α),
      cacheEntryAt s cache_type key = some e →
      s.cache_ttl ≤ now - e.timestamp →
      get_cached_data s now cache_type key = none) := by
  refine ⟨fun hlt => get_after_update s cache_type key x t1 t2 hEn hlt,
    fun now entry => ?_, fun now e hent hge => ?_⟩
  · cases entry with
    | none => simp [is_cache_valid]
    | some e => simp [is_cache_valid]
  · have hnotlt : ¬(now - e.timestamp < s.cache_ttl) := not_lt.mpr hge
    unfold cacheEntryAt at hent
    cases hctx : pyDictGet s.cache s.current_context with
    | none => simp [get_cached_data, hctx]
    | some ctxMap =>
      rw [hctx] at hent
      simp only at hent
      simp [get_cached_data, hctx, hent, is_cache_valid, hnotlt]

/-- Witness for C4 on a concrete store: an immediate read returns the
payload, an aged entry misses. -/
theorem cache_round_trip_and_ttl_witness :
    get_cached_data (update_cache (⟨true, 30, "ctx-a", []⟩ : ViewerState Nat)
      0 "nodes" "worker" 42) 10 "nodes" "worker" = some 42 ∧
    get_cached_data (⟨true, 30, "ctx-a",
      [("ctx-a", [("nodes", [("worker", ⟨42, 0⟩)])])]⟩ : ViewerState Nat) 50
      "nodes" "worker" = none :=
  ⟨(cache_round_trip_and_ttl _ "nodes" "worker" 42 0 10 rfl).1 (by decide),
   (cache_round_trip_and_ttl _ "nodes" "worker" 42 0 50 rfl).2.2 50 ⟨42, 0⟩
     (by decide) (by decide)⟩

/-- C5: a `put` performed while context A is active never changes what a
`get` issued under a different active context B observes — even for the
identical kind and key — so a payload stored under A is never returned
under B unless B independently holds it. -/
theorem cache_context_isolation {α : Type} (s : ViewerState α) (B : String)
    (t now : Int) (cache_type key kq keyq : String) (x : α)
    (hNe : s.current_context ≠ B) :
    get_cached_data
        { update_cache s t cache_type key x with current_context := B }
        now kq keyq
      = get_cached_data { s with current_context := B } now kq keyq := by
  by_cases hEn : s.cache_enabled = true
  · simp [update_cache, get_cached_data, is_cache_valid, hEn,
      pyDictGet_pyDictSet_ne _ _ _ _ hNe]
  · have h0 : s.cache_enabled = false := by
      cases hb : s.cache_enabled
      · rfl
      · exact absurd hb hEn
    simp [update_cache, h0]

/-- Witness for C5: a payload stored under `ctx-a` is not visible when
`ctx-b` is the active context, same kind and key. -/
theorem cache_context_isolation_witness :
    get_cached_data
      { update_cache (⟨true, 30, "ctx-a", []⟩ : ViewerState Nat) 0 "nodes"
          "worker" 42 with current_context := "ctx-b" } 5 "nodes" "worker"
      = none :=
  (cache_context_isolation (⟨true, 30, "ctx-a", []⟩ : ViewerState Nat)
    "ctx-b" 0 5 "nodes" "worker" "nodes" "worker" 42 (by decide)).trans
    (by decide)

/-- C8: `update_cache` updates the in-memory store and then serializes the
entire store; a failed flush (`writeOk = false`) leaves the durable contents
unchanged while the in-memory entry stands, so a within-TTL read returns the
new payload regardless of the flush outcome; a successful flush writes the
whole updated store. -/
theorem put_survives_flush_failure {α : Type} (w : CacheWorld α)
    (now t2 : Int) (cache_type key : String) (x : α) (writeOk : Bool)
    (hEn : w.viewer.cache_enabled = true)
    (hTTL : t2 - now < w.viewer.cache_ttl) :
    (update_cache_world w writeOk now cache_type key x).viewer
        = update_cache w.viewer now cache_type key x ∧
    get_cached_data (update_cache_world w writeOk now cache_type key x).viewer
        t2 cache_type key = some x ∧
    (update_cache_world w true now cache_type key x).disk
        = (update_cache w.viewer now cache_type key x).cache ∧
    (update_cache_world w false now cache_type key x).disk = w.disk := by
  refine ⟨?_, ?_, ?_, ?_⟩
  · simp [update_cache_world, hEn]
  · have h := get_after_update w.viewer cache_type key x now t2 hEn hTTL
    simpa [update_cache_world, hEn] using h
  · simp [update_cache_world, hEn]
  · simp [update_cache_world, hEn]

/-- Witness for C8: after a failed flush the read still returns the new
payload and the disk is untouched. -/
theorem put_survives_flush_failure_witness :
    get_cached_data (update_cache_world
      (⟨⟨true, 30, "ctx-b", []⟩, []⟩ : CacheWorld Nat) false 0 "pods"
      "node-1" 7).viewer 5 "pods" "node-1" = some 7 ∧
    (update_cache_world (⟨⟨true, 30, "ctx-b", []⟩, []⟩ : CacheWorld Nat)
      false 0 "pods" "node-1" 7).disk = [] :=
  ⟨(put_survives_flush_failure _ 0 5 "pods" "node-1" 7 false rfl
      (by decide)).2.1,
   (put_survives_flush_failure _ 0 5 "pods" "node-1" 7 false rfl
      (by decide)).2.2.2⟩

/-- C10: the cache-consultation heads of `get_pod_metrics` and `get_nodes`
test the returned payload for truthiness, so a valid cache entry holding an
empty list is treated as a miss (control falls through to a fresh fetch),
while a valid non-empty payload is served. -/
theorem empty_cached_list_not_served {β : Type} (s : ViewerState (List β))
    (now : Int) (node_name group_name : String) :
    (get_cached_data s now "pods" node_name = some [] →
      get_pod_metrics_cacheHit s now node_name = none) ∧
    (get_cached_data s now "nodes" group_name = some [] →
      get_nodes_cacheHit s now group_name = none) ∧
    (∀ l, get_cached_data s now "pods" node_name = some l → l ≠ [] →
      get_pod_metrics_cacheHit s now node_name = some l) ∧
    (∀ l, get_cached_data s now "nodes" group_name = some l → l ≠ [] →
      get_nodes_cacheHit s now group_name = some l) := by
  refine ⟨fun h => ?_, fun h => ?_, fun l h hne => ?_, fun l h hne => ?_⟩
  · simp [get_pod_metrics_cacheHit, h]
  · simp [get_nodes_cacheHit, h]
  · simp [get_pod_metrics_cacheHit, h, hne]
  · simp [get_nodes_cacheHit, h, hne]

/-- Witness for C10: a fresh, valid entry with an empty payload is not
served; a valid non-empty one is. -/
theorem empty_cached_list_not_served_witness :
    get_pod_metrics_cacheHit (⟨true, 30, "c",
      [("c", [("pods", [("node-1", ⟨([] : List Nat), 0⟩)])])]⟩ :
      ViewerState (List Nat)) 10 "node-1" = none ∧
    get_nodes_cacheHit (⟨true, 30, "c",
      [("c", [("nodes", [("worker", ⟨[5], 0⟩)])])]⟩ :
      ViewerState (List Nat)) 10 "worker" = some [5] :=
  ⟨(empty_cached_list_not_served _ 10 "node-1" "worker").1 (by decide),
   (empty_cached_list_not_served _ 10 "node-1" "worker").2.2.2 [5]
     (by decide) (by decide)⟩

/-! ## Lemmas about digit strings and the two memory parsers -/

theorem digitsValCore_all {cs : List Char} {n : Nat} :
    ∀ {acc : Nat}, digitsValCore cs acc = some n →
      ∀ c ∈ cs, isDigitChar c = true := by
  induction cs with
  | nil => intro acc h c hc; simp at hc
  | cons c rest ih =>
    intro acc h d hd
    by_cases hc : isDigitChar c = true
    · rcases List.mem_cons.mp hd with h1 | h1
      · subst h1; exact hc
      · exact ih (by simpa [digitsValCore, hc] using h) d h1
    · simp only [digitsValCore, if_neg hc] at h
      cases h

theorem digitsVal_all {cs : List Char} {n : Nat} (h : digitsVal cs = some n) :
    cs ≠ [] ∧ ∀ c ∈ cs, isDigitChar c = true := by
  cases cs with
  | nil => simp [digitsVal] at h
  | cons c rest =>
    exact ⟨by simp, digitsValCore_all (by simpa [digitsVal] using h)⟩

theorem rev_head_digit {l : List Char} (hne : l ≠ [])
    (hall : ∀ c ∈ l, isDigitChar c = true) :
    ∃ d t, l.reverse = d :: t ∧ isDigitChar d = true := by
  have h1 : l.reverse ≠ [] := by simpa using hne
  obtain ⟨d, t, hdt⟩ := List.exists_cons_of_ne_nil h1
  refine ⟨d, t, hdt, hall d ?_⟩
  have hmem : d ∈ l.reverse := by simp [hdt]
  simpa [List.mem_reverse] using hmem

theorem pyIntChars_cons (c : Char) (rest : List Char) :
    pyIntChars (c :: rest) =
      if c = '-' then (digitsVal rest).map (fun (n : Nat) => -(n : Int))
      else if c = '+' then (digitsVal rest).map (fun (n : Nat) => (n : Int))
      else (digitsVal (c :: rest)).map (fun (n : Nat) => (n : Int)) := rfl

theorem pyIntChars_shape {cs : List Char} {v : Int}
    (h : pyIntChars cs = some v) :
    ∃ d t, cs.reverse = d :: t ∧ isDigitChar d = true := by
  cases cs with
  | nil => simp [pyIntChars] at h
  | cons c rest =>
    rw [pyIntChars_cons] at h
    by_cases hm : c = '-'
    · rw [if_pos hm] at h
      obtain ⟨n, hn, _⟩ := Option.map_eq_some'.mp h
      obtain ⟨hne, hall⟩ := digitsVal_all hn
      obtain ⟨d, t, hdt, hd⟩ := rev_head_digit hne hall
      exact ⟨d, t ++ [c], by simp [hdt], hd⟩
    · rw [if_neg hm] at h
      by_cases hp : c = '+'
      · rw [if_pos hp] at h
        obtain ⟨n, hn, _⟩ := Option.map_eq_some'.mp h
        obtain ⟨hne, hall⟩ := digitsVal_all hn
        obtain ⟨d, t, hdt, hd⟩ := rev_head_digit hne hall
        exact ⟨d, t ++ [c], by simp [hdt], hd⟩
      · rw [if_neg hp] at h
        obtain ⟨n, hn, _⟩ := Option.map_eq_some'.mp h
        obtain ⟨hne, hall⟩ := digitsVal_all hn
        exact rev_head_digit hne hall

theorem digit_not_Ki {d : Char} (hd : isDigitChar d = true) :
    (d == 'K' || d == 'i') = false := by
  have hK : d ≠ 'K' := fun h => by subst h; exact absurd hd (by decide)
  have hi : d ≠ 'i' := fun h => by subst h; exact absurd hd (by decide)
  simp [hK, hi]

theorem stripSuffix2_last_digit_none {cs : List Char} (a : Char) {d : Char}
    {t : List Char} (hrev : cs.reverse = d :: t)
    (hd : isDigitChar d = true) : stripSuffix2 a 'i' cs = none := by
  have hdi : d ≠ 'i' := fun h => by subst h; exact absurd hd (by decide)
  cases t with
  | nil => simp [stripSuffix2, hrev]
  | cons x rest => simp [stripSuffix2, hrev, hdi]

theorem stripSuffix2_append {l : List Char} {a b : Char} :
    stripSuffix2 a b (l ++ [a, b]) = some l := by
  simp [stripSuffix2, List.reverse_append]

theorem stripSuffix2_append_ne {l : List Char} {a b x y : Char}
    (h : ¬(x = a ∧ y = b)) : stripSuffix2 a b (l ++ [x, y]) = none := by
  simp only [stripSuffix2, List.reverse_append]
  simp [h]

theorem pyIntChars_ne_unknown {cs : List Char} {v : Int}
    (h : pyIntChars cs = some v) : cs ≠ "<unknown>".data := by
  intro he
  have h0 : pyIntChars "<unknown>".data = none := by decide
  rw [he, h0] at h
  cases h

theorem rstripKi_digits {cs : List Char} {d : Char} {t : List Char}
    (hrev : cs.reverse = d :: t) (hd : isDigitChar d = true) :
    rstripKi cs = cs := by
  have e3 : (d == 'K' || d == 'i') = false := digit_not_Ki hd
  have hdw : cs.reverse.dropWhile (fun c => c == 'K' || c == 'i')
      = cs.reverse := by
    rw [hrev, List.dropWhile_cons]
    simp [e3]
  unfold rstripKi
  rw [hdw, List.reverse_reverse]

theorem rstripKi_stem {cs : List Char} {d : Char} {t : List Char}
    (hrev : cs.reverse = d :: t) (hd : isDigitChar d = true) :
    rstripKi (cs ++ ['K', 'i']) = cs := by
  have e1 : (('i' : Char) == 'K' || ('i' : Char) == 'i') = true := by decide
  have e2 : (('K' : Char) == 'K' || ('K' : Char) == 'i') = true := by decide
  have e3 : (d == 'K' || d == 'i') = false := digit_not_Ki hd
  have hstep : (cs ++ ['K', 'i']).reverse = 'i' :: 'K' :: cs.reverse := by
    simp
  have hdw2 : cs.reverse.dropWhile (fun c => c == 'K' || c == 'i')
      = cs.reverse := by
    rw [hrev, List.dropWhile_cons]
    simp [e3]
  have hdw : ('i' :: 'K' :: cs.reverse).dropWhile
      (fun c => c == 'K' || c == 'i') = cs.reverse := by
    simp [List.dropWhile_cons, e1, e2, hdw2]
  unfold rstripKi
  rw [hstep, hdw, List.reverse_reverse]

/-- C2, counterexample: on the node capacity/allocatable path of
`get_node_groups` (and `get_nodes`), a `Gi`-suffixed quantity or the
`<unknown>` sentinel raises (`none`) instead of resolving to the specified
value, and a plain integer is scaled by 1024 instead of being taken as raw
bytes — while the metrics path handles `4Gi` as specified. -/
theorem capacity_mem_parse_cex :
    nodeGroupsMemBytes "4Gi" = none ∧
    nodeGroupsMemBytes "<unknown>" = none ∧
    nodeGroupsMemBytes "12345" = some 12641280 ∧
    ((12641280 : Int) ≠ 12345) ∧
    metricsMemoryUsed "4Gi" = 4294967296 := by decide

/-- C2, amended: the specified memory rules (`Ki`/`Mi`/`Gi` scale by powers
of 1024, a plain integer is raw bytes, `<unknown>` is 0, malformed input
resolves to 0 without raising) hold for the metrics parsing path of
`get_node_metrics`; the inline capacity/allocatable path of
`get_node_groups` instead strips trailing `K`/`i` characters and multiplies
by 1024, so `Ki` values parse correctly there but a plain integer is also
scaled by 1024. -/
theorem mem_parse_rules :
    (∀ (s : String) (v : Int), pyInt s = some v →
      metricsMemoryUsed (s ++ "Ki") = v * 1024) ∧
    (∀ (s : String) (v : Int), pyInt s = some v →
      metricsMemoryUsed (s ++ "Mi") = v * (1024 * 1024)) ∧
    (∀ (s : String) (v : Int), pyInt s = some v →
      metricsMemoryUsed (s ++ "Gi") = v * (1024 * 1024 * 1024)) ∧
    (∀ (s : String) (v : Int), pyInt s = some v →
      metricsMemoryUsed s = v) ∧
    metricsMemoryUsed "<unknown>" = 0 ∧
    (∀ s : String, metricsMemRes s.data = none → metricsMemoryUsed s = 0) ∧
    (∀ (s : String) (v : Int), pyInt s = some v →
      nodeGroupsMemBytes (s ++ "Ki") = some (v * 1024)) ∧
    (∀ (s : String) (v : Int), pyInt s = some v →
      nodeGroupsMemBytes s = some (v * 1024)) := by
  refine ⟨fun s v h => ?_, fun s v h => ?_, fun s v h => ?_, fun s v h => ?_,
    by decide, fun s h => by simp [metricsMemoryUsed, h],
    fun s v h => ?_, fun s v h => ?_⟩
  · simp only [pyInt] at h
    have hdata : (s ++ "Ki").data = s.data ++ ['K', 'i'] := by
      rw [String.data_append]
    simp [metricsMemoryUsed, metricsMemRes, hdata, stripSuffix2_append, h]
  · simp only [pyInt] at h
    have hdata : (s ++ "Mi").data = s.data ++ ['M', 'i'] := by
      rw [String.data_append]
    have hne : ¬(('M' : Char) = 'K' ∧ ('i' : Char) = 'i') := by decide
    simp [metricsMemoryUsed, metricsMemRes, hdata, stripSuffix2_append,
      stripSuffix2_append_ne hne, h]
  · simp only [pyInt] at h
    have hdata : (s ++ "Gi").data = s.data ++ ['G', 'i'] := by
      rw [String.data_append]
    have hne1 : ¬(('G' : Char) = 'K' ∧ ('i' : Char) = 'i') := by decide
    have hne2 : ¬(('G' : Char) = 'M' ∧ ('i' : Char) = 'i') := by decide
    simp [metricsMemoryUsed, metricsMemRes, hdata, stripSuffix2_append,
      stripSuffix2_append_ne hne1, stripSuffix2_append_ne hne2, h]
  · simp only [pyInt] at h
    obtain ⟨d, t, hrev, hd⟩ := pyIntChars_shape h
    have h1 := stripSuffix2_last_digit_none 'K' hrev hd
    have h2 := stripSuffix2_last_digit_none 'M' hrev hd
    have h3 := stripSuffix2_last_digit_none 'G' hrev hd
    have h4 : s.data ≠ "<unknown>".data := pyIntChars_ne_unknown h
    simp [metricsMemoryUsed, metricsMemRes, h1, h2, h3, h4, h]
  · simp only [pyInt] at h
    obtain ⟨d, t, hrev, hd⟩ := pyIntChars_shape h
    have hdata : (s ++ "Ki").data = s.data ++ ['K', 'i'] := by
      rw [String.data_append]
    simp [nodeGroupsMemBytes, hdata, rstripKi_stem hrev hd, h]
  · simp only [pyInt] at h
    obtain ⟨d, t, hrev, hd⟩ := pyIntChars_shape h
    simp [nodeGroupsMemBytes, rstripKi_digits hrev hd, h]

/-- Witness for C2's amended rules at concrete quantities. -/
theorem mem_parse_rules_witness :
    metricsMemoryUsed ("1048576" ++ "Ki") = 1073741824 ∧
    metricsMemoryUsed ("2" ++ "Gi") = 2147483648 ∧
    metricsMemoryUsed "4096" = 4096 ∧
    nodeGroupsMemBytes ("4096" ++ "Ki") = some 4194304 :=
  ⟨(mem_parse_rules.1 "1048576" 1048576 (by decide)).trans (by decide),
   ((mem_parse_rules.2.2.1 "2" 2 (by decide)).trans (by decide)),
   mem_parse_rules.2.2.2.1 "4096" 4096 (by decide),
   (mem_parse_rules.2.2.2.2.2.2.1 "4096" 4096 (by decide)).trans (by decide)⟩

/-- C7, counterexample: for a creation timestamp 90 seconds in the future of
`now`, `calculate_age` truncates toward zero (`int(total/60)` gives -1,
hence "-1m"), while the claimed floor division gives -2, hence "-2m". -/
theorem age_floor_cex :
    parseTs "2026-01-01T00:01:30Z" = some 1767225690 ∧
    calculate_age 1767225600 "2026-01-01T00:01:30Z" = "-1m" ∧
    Int.fdiv (1767225600 - 1767225690) 60 = -2 ∧
    (("-1m" : String) ≠ "-2m") := by decide

/-- C7, amended: empty or unparseable input yields "N/A"; otherwise the
single-unit buckets are as specified but the quotient is truncated toward
zero (Python `int(x)`), which coincides with floor division exactly when
the elapsed time is nonnegative. -/
theorem age_buckets (nowSec : Int) (s : String) :
    (s = "" → calculate_age nowSec s = "N/A") ∧
    (parseTs s = none → calculate_age nowSec s = "N/A") ∧
    (∀ created, parseTs s = some created →
      (nowSec - created < 3600 →
        calculate_age nowSec s
          = toString (Int.tdiv (nowSec - created) 60) ++ "m") ∧
      (3600 ≤ nowSec - created → nowSec - created < 86400 →
        calculate_age nowSec s
          = toString (Int.tdiv (nowSec - created) 3600) ++ "h") ∧
      (86400 ≤ nowSec - created →
        calculate_age nowSec s
          = toString (Int.tdiv (nowSec - created) 86400) ++ "d") ∧
      (0 ≤ nowSec - created →
        Int.tdiv (nowSec - created) 60 = Int.fdiv (nowSec - created) 60 ∧
        Int.tdiv (nowSec - created) 3600
          = Int.fdiv (nowSec - created) 3600 ∧
        Int.tdiv (nowSec - created) 86400
          = Int.fdiv (nowSec - created) 86400)) := by
  refine ⟨fun h => by simp [calculate_age, h], fun h => ?_,
    fun created h => ?_⟩
  · by_cases hs : s = ""
    · simp [calculate_age, hs]
    · simp [calculate_age, hs, h]
  · have hs : s ≠ "" := by
      intro he
      rw [he] at h
      have h0 : parseTs "" = none := by decide
      rw [h0] at h
      cases h
    refine ⟨fun h1 => ?_, fun h1 h2 => ?_, fun h1 => ?_, fun h0 => ?_⟩
    · simp [calculate_age, hs, h, h1]
    · simp [calculate_age, hs, h, not_lt.mpr h1, h2]
    · have ha : ¬(nowSec - created < 3600) := by omega
      have hb : ¬(nowSec - created < 86400) := by omega
      simp [calculate_age, hs, h, ha, hb]
    · exact ⟨(Int.tdiv_eq_ediv h0 (by norm_num)).trans
          (Int.fdiv_eq_ediv _ (by norm_num)).symm,
        (Int.tdiv_eq_ediv h0 (by norm_num)).trans
          (Int.fdiv_eq_ediv _ (by norm_num)).symm,
        (Int.tdiv_eq_ediv h0 (by norm_num)).trans
          (Int.fdiv_eq_ediv _ (by norm_num)).symm⟩

/-- Witness for C7's amended buckets at the specification's examples:
90 s, 7200 s and 172800 s before now, and the empty string. -/
theorem age_buckets_witness :
    calculate_age 1767225690 "2026-01-01T00:00:00Z" = "1m" ∧
    calculate_age 1767232800 "2026-01-01T00:00:00Z" = "2h" ∧
    calculate_age 1767398400 "2026-01-01T00:00:00Z" = "2d" ∧
    calculate_age 0 "" = "N/A" :=
  ⟨(((age_buckets 1767225690 _).2.2 1767225600 (by decide)).1
      (by decide)).trans (by decide),
   (((age_buckets 1767232800 _).2.2 1767225600 (by decide)).2.1
      (by decide) (by decide)).trans (by decide),
   (((age_buckets 1767398400 _).2.2 1767225600 (by decide)).2.2.1
      (by decide)).trans (by decide),
   (age_buckets 0 "").1 rfl⟩

theorem pyDictGet_mem {β : Type} {l : List (String × β)} {k : String} {v : β}
    (h : pyDictGet l k = some v) : (k, v) ∈ l := by
  induction l with
  | nil => simp [pyDictGet] at h
  | cons p rest ih =>
    obtain ⟨k1, w⟩ := p
    by_cases h1 : k1 = k
    · subst h1
      simp [pyDictGet] at h
      subst h
      exact List.mem_cons_self _ _
    · simp only [pyDictGet, if_neg h1] at h
      exact List.mem_cons_of_mem _ (ih h)

theorem memScale_zero : memScale 0 = (0, 0) := by
  unfold memScale
  rw [if_pos (by norm_num : (0 : ℚ) < 1024)]

theorem fmt1_zero : fmt1 0 = "0.0" := by
  have h2 : (0 : ℚ) * 10 = 0 := by norm_num
  have h3 : roundHalfEven 0 = 0 := by
    unfold roundHalfEven
    norm_num
  unfold fmt1
  rw [h2, h3]
  rfl

theorem format_resource_zero_cpu : format_resource 0 false = "0m" := by
  have h1 : ((0 : ℚ) < 1) := by norm_num
  have h2 : (0 : ℚ) * 1000 = 0 := by norm_num
  unfold format_resource
  simp only [Bool.false_eq_true, if_false]
  rw [if_pos h1, h2]
  rfl

theorem format_resource_zero_mem : format_resource 0 true = "0.0B" := by
  unfold format_resource
  simp only [if_true, memScale_zero, fmt1_zero]
  rfl

theorem addNodeToGroups_no_metrics {gm : List (String × GroupAcc)}
    {node : KNode} (hok : memParseOkNode node = true)
    (hinv : ∀ p ∈ gm, p.2.used_cpu = 0 ∧ p.2.used_memory = 0) :
    ∃ gm2, addNodeToGroups [] gm node = some gm2 ∧
      ∀ p ∈ gm2, p.2.used_cpu = 0 ∧ p.2.used_memory = 0 := by
  obtain ⟨⟨mc, hmc⟩, ⟨ma, hma⟩⟩ :
      (∃ mc, nodeGroupsMemBytes (node.capacity.memory.getD "0") = some mc) ∧
      (∃ ma, nodeGroupsMemBytes (node.allocatable.memory.getD "0")
          = some ma) := by
    simpa [memParseOkNode, Option.isSome_iff_exists] using hok
  have hacc0 : ((pyDictGet gm (classifyGroup node.labels)).getD
        emptyGroupAcc).used_cpu = 0 ∧
      ((pyDictGet gm (classifyGroup node.labels)).getD
        emptyGroupAcc).used_memory = 0 := by
    cases hacc : pyDictGet gm (classifyGroup node.labels) with
    | none => simp [emptyGroupAcc]
    | some a =>
      simpa using hinv (classifyGroup node.labels, a) (pyDictGet_mem hacc)
  unfold addNodeToGroups
  rw [hmc, hma]
  refine ⟨_, rfl, ?_⟩
  intro p hp
  rcases mem_pyDictSet hp with h1 | h1
  · rw [h1]
    refine ⟨?_, ?_⟩
    · show ((pyDictGet gm (classifyGroup node.labels)).getD
          emptyGroupAcc).used_cpu
          + ((pyDictGet ([] : List (String × NodeUsage))
              node.name).getD ⟨0, 0⟩).cpu_used = 0
      simp [pyDictGet, hacc0.1]
    · show ((pyDictGet gm (classifyGroup node.labels)).getD
          emptyGroupAcc).used_memory
          + ((pyDictGet ([] : List (String × NodeUsage))
              node.name).getD ⟨0, 0⟩).memory_used = 0
      simp [pyDictGet, hacc0.2]
  · exact hinv p h1

theorem buildGroupMap_no_metrics (nodes : List KNode) :
    ∀ gm : List (String × GroupAcc),
      (∀ node ∈ nodes, memParseOkNode node = true) →
      (∀ p ∈ gm, p.2.used_cpu = 0 ∧ p.2.used_memory = 0) →
      ∃ gm2, buildGroupMap [] nodes gm = some gm2 ∧
        ∀ p ∈ gm2, p.2.used_cpu = 0 ∧ p.2.used_memory = 0 := by
  induction nodes with
  | nil => exact fun gm hok hinv => ⟨gm, rfl, hinv⟩
  | cons node rest ih =>
    intro gm hok hinv
    obtain ⟨gm1, hgm1, hinv1⟩ := addNodeToGroups_no_metrics
      (hok node (List.mem_cons_self _ _)) hinv
    obtain ⟨gm2, hgm2, hinv2⟩ := ih gm1
      (fun n hn => hok n (List.mem_cons_of_mem _ hn)) hinv1
    refine ⟨gm2, ?_, hinv2⟩
    simp only [buildGroupMap, hgm1]
    exact hgm2

theorem mem_insertRowByName {r a : NodeGroupRow} {l : List NodeGroupRow} :
    a ∈ insertRowByName r l ↔ a = r ∨ a ∈ l := by
  induction l with
  | nil => simp [insertRowByName]
  | cons x xs ih =>
    by_cases h : r.name < x.name
    · simp [insertRowByName, h]
    · simp only [insertRowByName, if_neg h, List.mem_cons, ih]
      tauto

theorem mem_sortedByName {a : NodeGroupRow} {l : List NodeGroupRow} :
    a ∈ sortedByName l ↔ a ∈ l := by
  induction l with
  | nil => simp [sortedByName]
  | cons x xs ih => simp [sortedByName, mem_insertRowByName, ih]

/-- C6, counterexample: with the metrics and autoscaler fetches failed and
the node fetch succeeding with one node whose capacity/allocatable memory
is `4Gi`, the inline memory parse of the node loop raises a `ValueError`,
so `get_node_groups` fails (`none`) instead of returning a group list. -/
theorem groups_fanout_cex :
    get_node_groups 0
      (.ok [⟨"n1", [], ⟨some "4", some "4Gi"⟩, ⟨some "4", some "4Gi"⟩,
        some "2024-01-01T00:00:00Z"⟩])
      (.error ()) (.error ()) = none := by decide

/-- C6, amended: each failed sub-fetch is independently replaced by its
empty default (empty node list, empty metrics map, empty pool list); when
every node's capacity/allocatable memory parses under the inline `Ki`
parser, the call returns a group list even though the metrics (and
autoscaler) fetches failed, and every returned group renders used CPU as
"0m" and used memory as "0.0B". Without that proviso the node loop can
raise (see the counterexample), so the spec's unconditional "never fails"
does not hold. -/
theorem groups_fanout (nowSec : Int)
    (nodesRes : Except Unit (List KNode))
    (metricsRes : Except Unit (List (String × NodeUsage)))
    (karpRes : Except Unit (List String)) (nodes : List KNode) :
    (get_node_groups nowSec (.error ()) metricsRes karpRes
        = get_node_groups nowSec (.ok []) metricsRes karpRes) ∧
    (get_node_groups nowSec nodesRes (.error ()) karpRes
        = get_node_groups nowSec nodesRes (.ok []) karpRes) ∧
    (get_node_groups nowSec nodesRes metricsRes (.error ())
        = get_node_groups nowSec nodesRes metricsRes (.ok [])) ∧
    ((∀ node ∈ nodes, memParseOkNode node = true) →
      ∃ rows, get_node_groups nowSec (.ok nodes) (.error ()) karpRes
          = some rows ∧
        ∀ row ∈ rows, row.used_cpu = "0m" ∧ row.used_memory = "0.0B") := by
  refine ⟨rfl, rfl, rfl, fun hok => ?_⟩
  obtain ⟨gm2, hgm2, hinv⟩ := buildGroupMap_no_metrics nodes [] hok (by simp)
  refine ⟨sortedByName ((gm2.filter (fun p => !p.2.nodes.isEmpty)).map
    (groupRow nowSec)), ?_, ?_⟩
  · simp only [get_node_groups, hgm2]
  · intro row hrow
    rw [mem_sortedByName] at hrow
    obtain ⟨p, hpmem, hrow2⟩ := List.mem_map.mp hrow
    have hp2 := hinv p (List.mem_of_mem_filter hpmem)
    subst hrow2
    constructor
    · show format_resource p.2.used_cpu false = "0m"
      rw [hp2.1, format_resource_zero_cpu]
    · show format_resource (p.2.used_memory : ℚ) true = "0.0B"
      rw [hp2.2, Int.cast_zero, format_resource_zero_mem]

/-- Witness for C6: one node with well-formed `Ki` memory quantities and a
failed metrics fetch — the call succeeds and renders zero usage. -/
theorem groups_fanout_witness :
    (∀ node ∈ [(⟨"n1", [], ⟨some "4", some "8388608Ki"⟩,
        ⟨some "4", some "8388608Ki"⟩,
        some "2024-01-01T00:00:00Z"⟩ : KNode)],
      memParseOkNode node = true) ∧
    (∃ rows, get_node_groups 0
        (.ok [(⟨"n1", [], ⟨some "4", some "8388608Ki"⟩,
          ⟨some "4", some "8388608Ki"⟩,
          some "2024-01-01T00:00:00Z"⟩ : KNode)])
        (.error ()) (.error ()) = some rows ∧
      ∀ row ∈ rows, row.used_cpu = "0m" ∧ row.used_memory = "0.0B") :=
  ⟨by decide,
   (groups_fanout 0 (.ok []) (.ok []) (.error ()) _).2.2.2 (by decide)⟩
